import Mathlib

/-!
Shallow embedding, in Lean 4, of the normalization and reconciliation
layer of the campus-app cloud functions (five Python pipelines:
calendar events, organization events, live campus busyness, live
parking, weather).  Numeric values flowing through the Python code are
modelled as rationals, Python `round` as round-half-to-even, Python
dicts as association lists with last-write-wins insertion, and Python
`None` / missing keys as `Option`.
-/

namespace CampusApp

/-- Python `round` on an exact value: round half to even, as CPython does.
Away from exact halves this agrees with rounding to the nearest integer,
written here as the floor of q + 1/2. -/
def pythonRound (q : ℚ) : ℤ :=
  if q - ⌊q⌋ = 1/2 then (if ⌊q⌋ % 2 = 0 then ⌊q⌋ else ⌊q⌋ + 1)
  else ⌊q + 1/2⌋

/-- `occupancy_status` from get-live-campus-busyness/main.py: convert an
occupancy percentage to a status string. -/
def occupancy_status (occupancy : ℚ) : String :=
  if occupancy ≥ 80 then "veryHigh"
  else if occupancy ≥ 50 then "high"
  else if occupancy ≥ 25 then "moderate"
  else "low"

/-- `determine_feels_like` from get-weather/main.py.  The Python code
coerces every argument through `float`; here the arguments are already
numbers. -/
def determine_feels_like (temperature wind_chill heat_index wind_speed humidity : ℚ) : ℤ :=
  if temperature ≤ 50 ∧ wind_speed > 3 then pythonRound wind_chill
  else if temperature ≥ 80 ∧ humidity > 40 then pythonRound heat_index
  else pythonRound temperature

/-- The 16 compass labels of `wind_direction_label`. -/
def directions : List String :=
  ["N", "NNE", "NE", "ENE", "E", "ESE", "SE", "SSE",
   "S", "SSW", "SW", "WSW", "W", "WNW", "NW", "NNW"]

/-- `wind_direction_label` from get-weather/main.py: Python `%` on ints is
`Int.emod` (result has the sign of the divisor). -/
def wind_direction_label (degrees : ℚ) : String :=
  directions.getD ((pythonRound (degrees / 22.5)).emod 16).toNat ""

/-! ## Python string primitives used by the pipelines -/

/-- Python str.lower on ASCII text. -/
def pyLower (w : String) : String :=
  String.mk (w.toList.map Char.toLower)

/-- Python str.capitalize on ASCII text: upper-case the first character,
lower-case the rest. -/
def pyCapitalize (w : String) : String :=
  match w.toList with
  | [] => ""
  | c :: cs => String.mk (c.toUpper :: cs.map Char.toLower)

/-- Helper for Python str.split with no argument: words of a character
list, splitting on runs of whitespace, accumulator holds the current
word reversed. -/
def splitWordsAux : List Char → List Char → List (List Char)
  | [], acc => if acc = [] then [] else [acc.reverse]
  | c :: cs, acc =>
    if c.isWhitespace then
      (if acc = [] then splitWordsAux cs [] else acc.reverse :: splitWordsAux cs [])
    else splitWordsAux cs (c :: acc)

/-- Python str.split with no argument: whitespace-separated words, with
no empty strings in the result. -/
def pySplit (s : String) : List String :=
  (splitWordsAux s.toList []).map String.mk

/-- `lot_key_from_name` from get-live-parking/main.py.  Python indexes
words[0], which raises IndexError when the name has no words; that
failure is the `none` case. -/
def lot_key_from_name (name : String) : Option String :=
  match pySplit name with
  | [] => none
  | w :: ws => some (pyLower w ++ String.join (ws.map pyCapitalize))

/-! ## Python numeric conversions -/

/-- Value of a digit run, most significant first. -/
def digitsToNat (ds : List Char) : ℕ :=
  ds.foldl (fun n c => n * 10 + (c.toNat - 48)) 0

/-- Python float(s) on the decimal core of its literal syntax: optional
surrounding whitespace, optional sign, digits with an optional single
point; exponents and the special values are not modelled.  `none` is a
ValueError. -/
def pyFloat (s : String) : Option ℚ :=
  let cs := ((s.toList.dropWhile Char.isWhitespace).reverse.dropWhile Char.isWhitespace).reverse
  let signed : ℚ × List Char :=
    match cs with
    | '-' :: rest => (-1, rest)
    | '+' :: rest => (1, rest)
    | _ => (1, cs)
  let intPart := signed.2.takeWhile Char.isDigit
  let rest := signed.2.dropWhile Char.isDigit
  match rest with
  | [] => if intPart = [] then none else some (signed.1 * digitsToNat intPart)
  | '.' :: frac =>
    if frac.all Char.isDigit ∧ (intPart ≠ [] ∨ frac ≠ []) then
      some (signed.1 * ((digitsToNat intPart : ℚ) +
        (digitsToNat frac : ℚ) / (10 : ℚ) ^ frac.length))
    else none
  | _ => none

/-- Python int(s) on a string: optional surrounding whitespace, optional
sign, decimal digits; `none` is a ValueError. -/
def pyIntOfString (s : String) : Option ℤ :=
  let cs := ((s.toList.dropWhile Char.isWhitespace).reverse.dropWhile Char.isWhitespace).reverse
  let signed : ℤ × List Char :=
    match cs with
    | '-' :: rest => (-1, rest)
    | '+' :: rest => (1, rest)
    | _ => (1, cs)
  if signed.2 ≠ [] ∧ signed.2.all Char.isDigit then
    some (signed.1 * digitsToNat signed.2)
  else none

/-- Python int(x) on a number: truncation toward zero. -/
def pyTrunc (q : ℚ) : ℤ :=
  if 0 ≤ q then ⌊q⌋ else ⌈q⌉

/-- A loosely typed JSON leaf value, as the parking feed delivers count
fields. -/
inductive PyV where
  | vNone
  | vInt (n : ℤ)
  | vStr (s : String)
deriving DecidableEq, Repr

/-- `parse_int` from get-live-parking/main.py: Python int() with
ValueError and TypeError mapped to the default 0. -/
def parse_int (value : PyV) : ℤ :=
  match value with
  | .vInt n => n
  | .vStr s => (pyIntOfString s).getD 0
  | .vNone => 0

/-! ## Parking pipeline (get-live-parking/main.py) -/

/-- Strip leading and trailing parenthesis characters, as the Python
strip of a parenthesis pair does. -/
def stripParens (s : String) : String :=
  String.mk ((((s.toList.dropWhile fun c => c = '(' ∨ c = ')').reverse.dropWhile
    fun c => c = '(' ∨ c = ')').reverse))

/-- Python str.split on a comma separator: keeps empty pieces, and the
empty string yields one empty piece. -/
def splitOnCommaAux : List Char → List (List Char)
  | [] => [[]]
  | c :: rest =>
    if c = ',' then [] :: splitOnCommaAux rest
    else (splitOnCommaAux rest).modifyHead (c :: ·)

/-- `parse_coordinate` from get-live-parking/main.py: parse a "(lat, lng)"
string into a coordinate pair; any unpack or float failure yields none. -/
def parse_coordinate (geocode_str : String) : Option (ℚ × ℚ) :=
  match (splitOnCommaAux (stripParens geocode_str).toList).map String.mk with
  | [lat_str, lng_str] =>
    match pyFloat lat_str, pyFloat lng_str with
    | some la, some ln => some (la, ln)
    | _, _ => none
  | _ => none

/-- One lot object of the OpenSpace feed, restricted to the keys the
pipeline reads. -/
structure FetchedLot where
  location_name : Option String
  location_address : Option String
  geocode : Option String
  total_spaces : PyV
  free_spaces : PyV
  occupancy : PyV
deriving DecidableEq, Repr

/-- The nested location dict written for a lot. -/
structure LotLocation where
  address : Option String
  coordinate : Option (ℚ × ℚ)
deriving DecidableEq, Repr

/-- The dict produced by `build_lot_data`: the full set of keys the
per-lot update writes. -/
structure LotData where
  id : String
  name : String
  location : LotLocation
  totalSpaces : ℤ
  availableSpaces : ℤ
  occupancy : ℤ
  isHidden : Bool
deriving DecidableEq, Repr

/-- A stored per-lot record: each key the update can write is optional
(a stored record may lack it), and extra holds stored fields outside the
updated key set, which a partial update never touches. -/
structure LotRecord where
  id : Option String
  name : Option String
  location : Option LotLocation
  totalSpaces : Option ℤ
  availableSpaces : Option ℤ
  occupancy : Option ℤ
  isHidden : Option Bool
  extra : List (String × PyV)
deriving DecidableEq, Repr

/-- The record read for a key that is not in the store: an empty dict. -/
def emptyRecord : LotRecord :=
  ⟨none, none, none, none, none, none, none, []⟩

/-- Python `x or None`: an empty string becomes None. -/
def pyOrNone (v : Option String) : Option String :=
  match v with
  | none => none
  | some s => if s = "" then none else some s

/-- `build_lot_data` from get-live-parking/main.py. -/
def build_lot_data (lot : FetchedLot) (current_data : LotRecord) (key : String) : LotData :=
  { id := key
    name := lot.location_name.getD ""
    location :=
      { address := pyOrNone (some (lot.location_address.getD ""))
        coordinate := parse_coordinate (lot.geocode.getD "") }
    totalSpaces := parse_int lot.total_spaces
    availableSpaces := parse_int lot.free_spaces
    occupancy := parse_int lot.occupancy
    isHidden := current_data.isHidden.getD false }

/-- Firebase child(key).update(data): merge the given keys over the
record stored at key, creating the record when absent; fields outside
the written key set are preserved. -/
def applyUpdate (r : LotRecord) (d : LotData) : LotRecord :=
  { id := some d.id
    name := some d.name
    location := some d.location
    totalSpaces := some d.totalSpaces
    availableSpaces := some d.availableSpaces
    occupancy := some d.occupancy
    isHidden := some d.isHidden
    extra := r.extra }

/-- The lots subtree of the store: an association of keys to records. -/
def ParkingStore : Type := List (String × LotRecord)

/-- Per-key update against the store. -/
def dbUpdate : ParkingStore → String → LotData → ParkingStore
  | [], key, d => [(key, applyUpdate emptyRecord d)]
  | (k, r) :: rest, key, d =>
    if k = key then (k, applyUpdate r d) :: rest
    else (k, r) :: dbUpdate rest key d

/-- Per-key delete against the store. -/
def dbDelete : ParkingStore → String → ParkingStore
  | [], _ => []
  | (k, r) :: rest, key =>
    if k = key then dbDelete rest key else (k, r) :: dbDelete rest key

/-- Dict read against the store (first binding of the key). -/
def storeGet : ParkingStore → String → Option LotRecord
  | [], _ => none
  | (k, r) :: rest, key => if k = key then some r else storeGet rest key

/-- The skip guard of the reconciliation loop: Python truthiness of
lot.get("location_name"). -/
def pyTruthyName (lot : FetchedLot) : Bool :=
  match lot.location_name with
  | none => false
  | some name => name ≠ ""

/-- One iteration of the reconciliation loop: skip a lot with a falsy
name, otherwise derive its key, read current_data from the pre-cycle
snapshot, and stage the update; none is an uncaught IndexError from the
key derivation. -/
def parkingStep (current_lots : ParkingStore) (db : ParkingStore) (lot : FetchedLot) :
    Option ParkingStore :=
  match lot.location_name with
  | none => some db
  | some name =>
    if name = "" then some db
    else
      match lot_key_from_name name with
      | none => none
      | some key =>
        let current_data := (storeGet current_lots key).getD emptyRecord
        some (dbUpdate db key (build_lot_data lot current_data key))

/-- The reconciliation loop over all fetched lots. -/
def parkingLoop (current_lots : ParkingStore) :
    ParkingStore → List FetchedLot → Option ParkingStore
  | db, [] => some db
  | db, lot :: rest =>
    match parkingStep current_lots db lot with
    | none => none
    | some db1 => parkingLoop current_lots db1 rest

/-- The keys the loop updates: derived keys of the fetched lots whose
name passes the skip guard. -/
def updatedKeys (parking_lots : List FetchedLot) : List String :=
  parking_lots.filterMap fun lot =>
    match lot.location_name with
    | none => none
    | some name => if name = "" then none else lot_key_from_name name

/-- `get_live_parking` reconciliation against the stored lot map: run the
update loop from the stored state, then delete every stored key the loop
did not touch.  none is a cycle aborted by an uncaught exception. -/
def get_live_parking_run (current_lots : ParkingStore) (parking_lots : List FetchedLot) :
    Option ParkingStore :=
  match parkingLoop current_lots current_lots parking_lots with
  | none => none
  | some db =>
    let obsolete := (current_lots.map Prod.fst).filter fun k => k ∉ updatedKeys parking_lots
    some (obsolete.foldl dbDelete db)

/-- Stored record for a concrete reconciliation cycle: a hidden lot with
an extra stored field. -/
def lotRecordAlpha : LotRecord :=
  { id := some "alpha"
    name := some "Alpha"
    location := none
    totalSpaces := some 100
    availableSpaces := some 40
    occupancy := some 60
    isHidden := some true
    extra := [("note", PyV.vStr "keep")] }

/-- Stored record for a lot the fresh fetch no longer reports. -/
def lotRecordBeta : LotRecord :=
  { id := some "beta"
    name := some "Beta"
    location := none
    totalSpaces := none
    availableSpaces := none
    occupancy := none
    isHidden := none
    extra := [] }

/-- A concrete stored lot map. -/
def storedParkingC1 : ParkingStore :=
  [("alpha", lotRecordAlpha), ("beta", lotRecordBeta)]

/-- A freshly fetched lot whose key matches a stored record. -/
def lotAlphaFetched : FetchedLot :=
  { location_name := some "Alpha"
    location_address := some "123 Main St"
    geocode := none
    total_spaces := PyV.vInt 100
    free_spaces := PyV.vStr "55"
    occupancy := PyV.vInt 45 }

/-- A freshly fetched lot with no stored record. -/
def lotGammaFetched : FetchedLot :=
  { location_name := some "Gamma Deck"
    location_address := none
    geocode := none
    total_spaces := PyV.vNone
    free_spaces := PyV.vNone
    occupancy := PyV.vNone }

/-- A fetched lot with no name, which the loop skips. -/
def lotNamelessFetched : FetchedLot :=
  { location_name := none
    location_address := none
    geocode := none
    total_spaces := PyV.vNone
    free_spaces := PyV.vNone
    occupancy := PyV.vNone }

/-- A concrete fresh fetch for the reconciliation cycle. -/
def fetchedParkingC1 : List FetchedLot :=
  [lotAlphaFetched, lotNamelessFetched, lotGammaFetched]

/-! ## Weather pipeline (get-weather/main.py) -/

/-- One camera object of a WeatherStem station. -/
structure Camera where
  name : Option String
  image : Option String
deriving DecidableEq, Repr

/-- A WeatherStem station payload, restricted to the parts the pipeline
reads: record.readings as (sensor_type, value) pairs and the camera
list.  Sensor values are modelled as numbers. -/
structure Station where
  readings : List (String × ℚ)
  cameras : List Camera
deriving DecidableEq, Repr

/-- Read from the dict `extract_readings` builds out of the reading
pairs: the last pair with the key wins, a missing key is none. -/
def readingsGet : List (String × ℚ) → String → Option ℚ
  | [], _ => none
  | (k1, v) :: rest, k =>
    match readingsGet rest k with
    | some v1 => some v1
    | none => if k1 = k then some v else none

/-- `extract_camera_url` from get-weather/main.py: the image of the first
camera named Cloud Camera. -/
def extract_camera_url (station : Station) : Option String :=
  match station.cameras.find? (fun c => c.name = some "Cloud Camera") with
  | some camera => camera.image
  | none => none

/-- The weather document written by the pipeline. -/
structure WeatherRecord where
  temperature : ℤ
  feelsLike : ℤ
  humidity : ℤ
  windSpeed : ℤ
  windGust : ℤ
  windDirection : String
  windDegrees : ℤ
  uvIndex : ℤ
  rainRate : ℚ
  rainTotal : ℚ
  solarRadiation : ℤ
  sunrise : Option ℤ
  sunset : Option ℤ
  lastUpdated : String
  imageUrl : Option String
deriving DecidableEq, Repr

/-- The `get_weather` cycle from the station object on: build the weather
document, or return none when the Thermometer reading is missing or
falsy, in which case nothing is written.  The sunrise/sunset pair is the
astronomical computation, already degraded to none on failure; the
timestamp is the formatted civil time.  The function is total: the
guarded path returns cleanly instead of raising. -/
def get_weather_write (station : Station) (sunriseSunset : Option (ℤ × ℤ))
    (timestamp_str : String) : Option WeatherRecord :=
  let readings := station.readings
  let image_url := extract_camera_url station
  match readingsGet readings "Thermometer" with
  | none => none
  | some temperature =>
    if temperature = 0 then none
    else
      some
        { temperature := pythonRound temperature
          feelsLike := determine_feels_like temperature
            ((readingsGet readings "Wind Chill").getD temperature)
            ((readingsGet readings "Heat Index").getD temperature)
            ((readingsGet readings "Anemometer").getD 0)
            ((readingsGet readings "Hygrometer").getD 0)
          humidity := pyTrunc ((readingsGet readings "Hygrometer").getD 0)
          windSpeed := pyTrunc ((readingsGet readings "Anemometer").getD 0)
          windGust := pyTrunc ((readingsGet readings "10 Minute Wind Gust").getD 0)
          windDirection := wind_direction_label ((readingsGet readings "Wind Vane").getD 0)
          windDegrees := pyTrunc ((readingsGet readings "Wind Vane").getD 0)
          uvIndex := pyTrunc ((readingsGet readings "UV Radiation Sensor").getD 0)
          rainRate := (readingsGet readings "Rain Rate").getD 0
          rainTotal := (readingsGet readings "Rain Gauge").getD 0
          solarRadiation := pyTrunc ((readingsGet readings "Solar Radiation Sensor").getD 0)
          sunrise := sunriseSunset.map Prod.fst
          sunset := sunriseSunset.map Prod.snd
          lastUpdated := timestamp_str
          imageUrl := image_url }

/-- A concrete station payload with no Thermometer reading. -/
def stationNoThermometer : Station :=
  { readings := [("Hygrometer", 40), ("Anemometer", 5)]
    cameras := [] }

/-! ## Event pipelines (get-calendar-events and get-organization-events)

The HTML stripper (BeautifulSoup get_text plus strip after unescape) and
the ISO datetime parse-and-convert are external libraries; the pipeline
functions take them as parameters soup and conv, with the surrounding
control flow of clean_html and to_eastern embedded from the source. -/

/-- `clean_html` control flow: a falsy input yields the empty string,
otherwise the stripped text. -/
def clean_html (soup : String → String) (html_str : String) : String :=
  if html_str = "" then "" else soup html_str

/-- `to_eastern` control flow: a falsy input yields none, a parse failure
passes the original string through, success yields the converted
string. -/
def to_eastern (conv : String → Option String) (time_str : Option String) : Option String :=
  match time_str with
  | none => none
  | some s =>
    if s = "" then none
    else
      match conv s with
      | some converted => some converted
      | none => some s

/-- Python truthiness of an optional string. -/
def pyTruthyStr (v : Option String) : Bool :=
  match v with
  | none => false
  | some s => s ≠ ""

/-- Python truthiness of an optional number. -/
def pyTruthyNum (v : Option ℚ) : Bool :=
  match v with
  | none => false
  | some q => q ≠ 0

/-- The coordinate composition both format_event functions share: the
dict with keys lat and lng when both values are truthy, otherwise
None. -/
def mkCoordinate (lat lng : Option ℚ) : Option (Option ℚ × Option ℚ) :=
  if pyTruthyNum lat && pyTruthyNum lng then some (lat, lng) else none

/-- A Localist geo field: float(s) of a truthy string, None otherwise;
the outer none is a float ValueError escaping format_event. -/
def localistCoordField (field : Option String) : Option (Option ℚ) :=
  match field with
  | none => some none
  | some s => if s = "" then some none else (pyFloat s).map some

/-- An Engage address coordinate field: the number when truthy, None
otherwise. -/
def engageCoordField (field : Option ℚ) : Option ℚ :=
  match field with
  | none => none
  | some q => if q = 0 then none else some q

/-- One event_instance of a Localist event. -/
structure LocalistInstance where
  start : Option String
  endTime : Option String
  all_day : Option Bool
deriving DecidableEq, Repr

/-- A Localist event object, restricted to the keys format_event reads;
numeric upstream ids are embedded as their decimal strings, and the
filters.event_types and departments lists as their name fields. -/
structure LocalistItem where
  id : Option String
  title : Option String
  description : Option String
  description_text : Option String
  event_instances : List LocalistInstance
  filters_event_types : List (Option String)
  departments : List (Option String)
  geo_latitude : Option String
  geo_longitude : Option String
  location_name : Option String
  address : Option String
  localist_url : Option String
  url : Option String
  photo_url : Option String
deriving DecidableEq, Repr

/-- The unified event written by the calendar pipeline. -/
structure LocalistEvent where
  id : String
  title : String
  description : String
  start : Option String
  endTime : Option String
  allDay : Bool
  location_name : Option String
  location_address : Option String
  coordinate : Option (Option ℚ × Option ℚ)
  url : Option String
  imageUrl : Option String
  source : String
  categories : Option (List String)
  department : Option String
deriving DecidableEq, Repr

namespace Localist

/-- `format_event` from get-calendar-events/main.py; none is a float
ValueError on a malformed geo field, which aborts the cycle. -/
def format_event (soup : String → String) (conv : String → Option String)
    (item : LocalistItem) : Option LocalistEvent :=
  let inst := item.event_instances.head?.getD ⟨none, none, none⟩
  let categories := item.filters_event_types.map fun nm => nm.getD ""
  let department :=
    match item.departments.head? with
    | none => none
    | some nm => nm
  match localistCoordField item.geo_latitude, localistCoordField item.geo_longitude with
  | some lat, some lng =>
    some
      { id := "localist_" ++ item.id.getD ""
        title := item.title.getD ""
        description :=
          (let d := clean_html soup (item.description.getD "")
           if d = "" then item.description_text.getD "" else d)
        start := to_eastern conv inst.start
        endTime := to_eastern conv inst.endTime
        allDay := inst.all_day.getD false
        location_name := pyOrNone item.location_name
        location_address := pyOrNone item.address
        coordinate := mkCoordinate lat lng
        url :=
          (match pyOrNone item.localist_url with
           | some u => some u
           | none => pyOrNone item.url)
        imageUrl := pyOrNone item.photo_url
        source := "localist"
        categories := if categories = [] then none else some categories
        department := department }
  | _, _ => none

end Localist

/-- An Engage event object, restricted to the keys format_event reads;
the categories list holds the name field of each category dict and the
address fields are flattened. -/
structure EngageItem where
  id : Option String
  name : Option String
  description : Option String
  startsOn : Option String
  endsOn : Option String
  address_name : Option String
  address_address : Option String
  address_line1 : Option String
  address_latitude : Option ℚ
  address_longitude : Option ℚ
  theme : Option String
  categories : List (Option String)
  benefits : List String
  imageUrl : Option String
  submittedByOrganizationId : Option String
deriving DecidableEq, Repr

/-- The unified event written by the organization pipeline. -/
structure EngageEvent where
  id : String
  title : String
  description : String
  start : Option String
  endTime : Option String
  allDay : Bool
  location_name : Option String
  location_address : Option String
  coordinate : Option (Option ℚ × Option ℚ)
  url : Option String
  imageUrl : Option String
  source : String
  categories : Option (List String)
  benefits : Option (List String)
  organization : Option String
deriving DecidableEq, Repr

/-- The theme-plus-categories merge of the Engage format_event: start
from the truthy theme, then append each truthy category name not yet in
the list. -/
def engageMergeCategories (theme : Option String) (cats : List (Option String)) : List String :=
  let cats0 := if pyTruthyStr theme then [theme.getD ""] else []
  cats.foldl
    (fun acc c =>
      let name := c.getD ""
      if name ≠ "" ∧ name ∉ acc then acc ++ [name] else acc)
    cats0

namespace Engage

/-- `format_event` from get-organization-events/main.py. -/
def format_event (soup : String → String) (conv : String → Option String)
    (item : EngageItem) (org_map : List (String × String)) : EngageEvent :=
  let organization :=
    match item.submittedByOrganizationId with
    | none => none
    | some oid => if oid = "" then none else org_map.lookup oid
  let categories := engageMergeCategories item.theme item.categories
  { id := "engage_" ++ item.id.getD ""
    title := item.name.getD ""
    description := clean_html soup (item.description.getD "")
    start := to_eastern conv item.startsOn
    endTime := to_eastern conv item.endsOn
    allDay := false
    location_name := pyOrNone item.address_name
    location_address :=
      (match pyOrNone item.address_address with
       | some a => some a
       | none => pyOrNone item.address_line1)
    coordinate :=
      mkCoordinate (engageCoordField item.address_latitude)
        (engageCoordField item.address_longitude)
    url := none
    imageUrl := pyOrNone item.imageUrl
    source := "engage"
    categories := if categories = [] then none else some categories
    benefits := if item.benefits = [] then none else some item.benefits
    organization := organization }

end Engage

/-- Python dict insertion: an existing key keeps its position and takes
the new value, a new key is appended. -/
def dictSet {β : Type} : List (String × β) → String → β → List (String × β)
  | [], k, v => [(k, v)]
  | (k1, v1) :: rest, k, v =>
    if k1 = k then (k1, v) :: rest else (k1, v1) :: dictSet rest k v

/-- The items dict keyed by event id, built left to right so that the
last event with an id wins. -/
def buildItems {β : Type} (key : β → String) (events : List β) : List (String × β) :=
  events.foldl (fun d e => dictSet d (key e) e) []

/-- The counted condition of todayCount: a truthy start that begins with
the civil date. -/
def startsToday (today : String) (start : Option String) : Bool :=
  match start with
  | none => false
  | some s => s ≠ "" && s.startsWith today

/-- One events document in the store. -/
structure EventsDoc (β : Type) where
  items : List (String × β)
  todayCount : ℕ
  lastUpdated : String
deriving DecidableEq

/-- The list comprehension over a fallible transform: the first failure
aborts the whole construction, as an exception does. -/
def mapOption {α β : Type} (f : α → Option β) : List α → Option (List β)
  | [] => some []
  | a :: rest =>
    match f a with
    | none => none
    | some b => (mapOption f rest).map (b :: ·)

/-- The `get_calendar_events` cycle from the fetched event list on: a
formatting exception or an empty list leaves the document unwritten,
otherwise the document is replaced wholesale. -/
def get_calendar_events_run (soup : String → String) (conv : String → Option String)
    (today timestamp : String) (doc : EventsDoc LocalistEvent)
    (raw_events : List LocalistItem) : EventsDoc LocalistEvent :=
  match mapOption (Localist.format_event soup conv) raw_events with
  | none => doc
  | some events =>
    if events = [] then doc
    else
      { items := buildItems (fun e => e.id) events
        todayCount := events.countP fun e => startsToday today e.start
        lastUpdated := timestamp }

/-- The `get_organization_events` cycle from the fetched event list on;
org_map is the batch organization-name lookup for this cycle. -/
def get_organization_events_run (soup : String → String) (conv : String → Option String)
    (org_map : List (String × String)) (today timestamp : String)
    (doc : EventsDoc EngageEvent) (raw_events : List EngageItem) : EventsDoc EngageEvent :=
  if raw_events = [] then doc
  else
    let events := raw_events.map fun item => Engage.format_event soup conv item org_map
    { items := buildItems (fun e => e.id) events
      todayCount := events.countP fun e => startsToday today e.start
      lastUpdated := timestamp }

/-- A concrete Localist event object with no geo fields. -/
def localistItemPlain : LocalistItem :=
  { id := some "42"
    title := some "Concert"
    description := none
    description_text := none
    event_instances := []
    filters_event_types := [some "Music"]
    departments := []
    geo_latitude := none
    geo_longitude := none
    location_name := none
    address := none
    localist_url := none
    url := none
    photo_url := none }

/-- A concrete Localist event object whose event-type names repeat. -/
def localistItemDup : LocalistItem :=
  { id := some "7"
    title := some "Fair"
    description := none
    description_text := none
    event_instances := []
    filters_event_types := [some "Arts", some "Arts"]
    departments := []
    geo_latitude := none
    geo_longitude := none
    location_name := none
    address := none
    localist_url := none
    url := none
    photo_url := none }

/-- C2: for every occupancy value v on the 0-100 scale, occupancy_status v
is "veryHigh" iff v ≥ 80, "high" iff 50 ≤ v < 80, "moderate" iff
25 ≤ v < 50, and "low" iff v < 25; every lower bound is inclusive. -/
theorem occupancy_status_buckets (v : ℚ) (h0 : 0 ≤ v) (h100 : v ≤ 100) :
    (occupancy_status v = "veryHigh" ↔ 80 ≤ v) ∧
    (occupancy_status v = "high" ↔ 50 ≤ v ∧ v < 80) ∧
    (occupancy_status v = "moderate" ↔ 25 ≤ v ∧ v < 50) ∧
    (occupancy_status v = "low" ↔ v < 25) := by
  unfold occupancy_status
  split_ifs with h1 h2 h3 <;>
    refine ⟨?_, ?_, ?_, ?_⟩ <;>
    constructor <;>
    intro h <;>
    first
      | rfl
      | (exfalso; revert h; decide)
      | linarith
      | (exact absurd h (by decide))
      | (constructor <;> linarith)

/-- Witness for C2 at v = 50. -/
theorem occupancy_status_buckets_at_50 :
    occupancy_status 50 = "high" ↔ 50 ≤ (50 : ℚ) ∧ (50 : ℚ) < 80 :=
  (occupancy_status_buckets 50 (by norm_num) (by norm_num)).2.1

/-- C3: determine_feels_like returns the rounded wind chill when t ≤ 50 and
wind speed > 3, otherwise the rounded heat index when t ≥ 80 and humidity
> 40, otherwise the rounded temperature; with the three concrete cases
from the spec. -/
theorem determine_feels_like_rule :
    (∀ t wc hi ws h : ℚ,
      ((t ≤ 50 ∧ ws > 3) → determine_feels_like t wc hi ws h = pythonRound wc) ∧
      (¬(t ≤ 50 ∧ ws > 3) → (t ≥ 80 ∧ h > 40) →
        determine_feels_like t wc hi ws h = pythonRound hi) ∧
      (¬(t ≤ 50 ∧ ws > 3) → ¬(t ≥ 80 ∧ h > 40) →
        determine_feels_like t wc hi ws h = pythonRound t)) ∧
    determine_feels_like 45 40 0 5 0 = 40 ∧
    determine_feels_like 85 0 90 0 50 = 90 ∧
    determine_feels_like 65 0 0 0 0 = 65 := by
  refine ⟨fun t wc hi ws h => ⟨?_, ?_, ?_⟩, ?_, ?_, ?_⟩
  · intro hc; simp [determine_feels_like, hc]
  · intro hc1 hc2; simp [determine_feels_like, hc1, hc2]
  · intro hc1 hc2; simp [determine_feels_like, hc1, hc2]
  all_goals norm_num [determine_feels_like, pythonRound]

/-- Witness for C3, discharging the branch hypotheses at concrete inputs. -/
theorem determine_feels_like_rule_cases :
    determine_feels_like 45 40 12 5 7 = pythonRound 40 ∧
    determine_feels_like 85 1 90 2 50 = pythonRound 90 ∧
    determine_feels_like 65 1 2 3 4 = pythonRound 65 :=
  ⟨(determine_feels_like_rule.1 45 40 12 5 7).1 ⟨by norm_num, by norm_num⟩,
   (determine_feels_like_rule.1 85 1 90 2 50).2.1 (by norm_num) ⟨by norm_num, by norm_num⟩,
   (determine_feels_like_rule.1 65 1 2 3 4).2.2 (by norm_num) (by norm_num)⟩

/-- C9: wind_direction_label maps a degree value to one of the 16 compass
labels via round(d / 22.5) mod 16; on [0, 360) it agrees with itself after
reduction mod 360, and 0 maps to "N", 180 to "S". -/
theorem wind_direction_label_spec (d : ℚ) (h0 : 0 ≤ d) (h360 : d < 360) :
    wind_direction_label d = wind_direction_label (d - 360 * ⌊d / 360⌋) ∧
    wind_direction_label d =
      directions.getD ((pythonRound (d / 22.5)).emod 16).toNat "" ∧
    wind_direction_label d ∈ directions ∧
    wind_direction_label 0 = "N" ∧
    wind_direction_label 180 = "S" := by
  have hfl : ⌊d / 360⌋ = 0 := by
    rw [Int.floor_eq_zero_iff]
    constructor
    · positivity
    · rw [div_lt_one (by norm_num)]; linarith
  refine ⟨by rw [hfl]; ring_nf, rfl, ?_, ?_, ?_⟩
  · have hlt : ((pythonRound (d / 22.5)).emod 16).toNat < directions.length := by
      have h1 : (pythonRound (d / 22.5)).emod 16 < 16 :=
        Int.emod_lt_of_pos _ (by norm_num)
      have h2 : (0 : ℤ) ≤ (pythonRound (d / 22.5)).emod 16 :=
        Int.emod_nonneg _ (by norm_num)
      simp only [directions, List.length]
      omega
    rw [wind_direction_label, List.getD_eq_getElem _ _ hlt]
    exact List.getElem_mem hlt
  · have : pythonRound (0 / 22.5) = 0 := by norm_num [pythonRound]
    rw [wind_direction_label, this]
    rfl
  · have : pythonRound (180 / 22.5) = 8 := by norm_num [pythonRound]
    rw [wind_direction_label, this]
    rfl

/-- Witness for C9 at d = 180. -/
theorem wind_direction_label_spec_at_180 :
    wind_direction_label 180 ∈ directions :=
  (wind_direction_label_spec 180 (by norm_num) (by norm_num)).2.2.1

/-- C8: the lot key derivation lower-cases the first whitespace-separated
word and capitalizes each remaining word, concatenated with no separator;
it is a pure function, so equal names yield equal keys. -/
theorem lot_key_from_name_spec :
    lot_key_from_name "Dan Allen Deck" = some "danAllenDeck" ∧
    lot_key_from_name "Coliseum" = some "coliseum" ∧
    (∀ name w ws, pySplit name = w :: ws →
      lot_key_from_name name = some (pyLower w ++ String.join (ws.map pyCapitalize))) ∧
    (∀ a b : String, a = b → lot_key_from_name a = lot_key_from_name b) := by
  refine ⟨by decide, by decide, ?_, ?_⟩
  · intro name w ws h
    simp [lot_key_from_name, h]
  · intro a b h
    rw [h]

/-- Witness for C8, discharging the hypotheses at concrete names. -/
theorem lot_key_from_name_spec_cases :
    lot_key_from_name "Dan Allen Deck" =
      some (pyLower "Dan" ++ String.join (["Allen", "Deck"].map pyCapitalize)) ∧
    lot_key_from_name "Coliseum" = lot_key_from_name "Coliseum" :=
  ⟨lot_key_from_name_spec.2.2.1 "Dan Allen Deck" "Dan" ["Allen", "Deck"] (by decide),
   lot_key_from_name_spec.2.2.2 "Coliseum" "Coliseum" rfl⟩

/-- The word splitter returns no words exactly when the input is all
whitespace and the accumulator is empty. -/
theorem splitWordsAux_eq_nil (cs : List Char) :
    ∀ acc, splitWordsAux cs acc = [] ↔
      (∀ c ∈ cs, c.isWhitespace = true) ∧ acc = [] := by
  induction cs with
  | nil =>
    intro acc
    by_cases h : acc = [] <;> simp [splitWordsAux, h]
  | cons c cs ih =>
    intro acc
    by_cases hw : c.isWhitespace = true
    · by_cases ha : acc = []
      · simp [splitWordsAux, hw, ha, ih]
      · simp [splitWordsAux, hw, ha]
    · simp [splitWordsAux, hw, ih]

/-- C10: a name admitted by the skip guard (a non-empty string) yields a
key without raising exactly when it contains a non-whitespace character;
a name of pure whitespace is admitted by the guard yet raises (the none
case of the derivation). -/
theorem lot_key_guard_safety :
    (∀ name : String, name ≠ "" →
      ((lot_key_from_name name).isSome ↔ ∃ c ∈ name.toList, ¬ c.isWhitespace = true)) ∧
    (" " : String) ≠ "" ∧ lot_key_from_name " " = none := by
  refine ⟨?_, by decide, by decide⟩
  intro name _
  rw [lot_key_from_name]
  rcases hs : pySplit name with _ | ⟨w, ws⟩
  · rw [pySplit, List.map_eq_nil] at hs
    rw [splitWordsAux_eq_nil] at hs
    simp only [Option.isSome_none, Bool.false_eq_true, false_iff, not_exists]
    push_neg
    intro c hc
    exact hs.1 c hc
  · rw [pySplit] at hs
    rcases hm : splitWordsAux name.toList [] with _ | ⟨l, ls⟩
    · rw [hm] at hs
      simp at hs
    · simp only [Option.isSome_some, true_iff]
      by_contra hno
      push_neg at hno
      have : splitWordsAux name.toList [] = [] :=
        (splitWordsAux_eq_nil _ _).mpr ⟨fun c hc => hno c hc, rfl⟩
      rw [this] at hm
      exact List.noConfusion hm

/-- Witness for C10 at the name "Lot A". -/
theorem lot_key_guard_safety_at_lot_a :
    (lot_key_from_name "Lot A").isSome :=
  (lot_key_guard_safety.1 "Lot A" (by decide)).mpr ⟨'L', by decide, by decide⟩

/-! ## Parking reconciliation lemmas -/

theorem storeGet_dbUpdate_self (db : ParkingStore) (key : String) (d : LotData) :
    storeGet (dbUpdate db key d) key =
      some (applyUpdate ((storeGet db key).getD emptyRecord) d) := by
  induction db with
  | nil => simp [dbUpdate, storeGet]
  | cons kv rest ih =>
    obtain ⟨k, r⟩ := kv
    by_cases h : k = key <;> simp [dbUpdate, storeGet, h, ih]

theorem storeGet_dbUpdate_ne (db : ParkingStore) (key : String) (d : LotData)
    (k : String) (h : k ≠ key) :
    storeGet (dbUpdate db key d) k = storeGet db k := by
  have h' : key ≠ k := Ne.symm h
  induction db with
  | nil => simp [dbUpdate, storeGet, h']
  | cons kv rest ih =>
    obtain ⟨k1, r⟩ := kv
    by_cases h1 : k1 = key
    · subst h1
      simp [dbUpdate, storeGet, h']
    · by_cases h2 : k1 = k
      · subst h2
        simp [dbUpdate, storeGet, h1]
      · simp [dbUpdate, storeGet, h1, h2, ih]

theorem storeGet_dbDelete_self (db : ParkingStore) (key : String) :
    storeGet (dbDelete db key) key = none := by
  induction db with
  | nil => simp [dbDelete, storeGet]
  | cons kv rest ih =>
    obtain ⟨k, r⟩ := kv
    by_cases h : k = key
    · subst h
      simpa [dbDelete, storeGet] using ih
    · simpa [dbDelete, storeGet, h] using ih

theorem storeGet_dbDelete_ne (db : ParkingStore) (key k : String) (h : k ≠ key) :
    storeGet (dbDelete db key) k = storeGet db k := by
  have h' : key ≠ k := Ne.symm h
  induction db with
  | nil => simp [dbDelete, storeGet]
  | cons kv rest ih =>
    obtain ⟨k1, r⟩ := kv
    by_cases h1 : k1 = key
    · subst h1
      simp [dbDelete, storeGet, h', ih]
    · by_cases h2 : k1 = k
      · subst h2
        simp [dbDelete, storeGet, h1]
      · simp [dbDelete, storeGet, h1, h2, ih]

theorem storeGet_foldl_dbDelete_of_notMem (ks : List String) :
    ∀ db k, k ∉ ks → storeGet (ks.foldl dbDelete db) k = storeGet db k := by
  induction ks with
  | nil => intro db k _; rfl
  | cons k0 rest ih =>
    intro db k hk
    have hne : k ≠ k0 := fun h => hk (h ▸ List.mem_cons_self _ _)
    have hrest : k ∉ rest := fun h => hk (List.mem_cons_of_mem _ h)
    simpa [List.foldl_cons, ih (dbDelete db k0) k hrest] using
      storeGet_dbDelete_ne db k0 k hne

theorem storeGet_foldl_dbDelete_of_mem (ks : List String) :
    ∀ db k, k ∈ ks → storeGet (ks.foldl dbDelete db) k = none := by
  induction ks with
  | nil => intro db k hk; cases hk
  | cons k0 rest ih =>
    intro db k hk
    by_cases hrest : k ∈ rest
    · exact ih (dbDelete db k0) k hrest
    · have hk0 : k = k0 := by
        rcases List.mem_cons.mp hk with h | h
        · exact h
        · exact absurd h hrest
      subst hk0
      rw [List.foldl_cons, storeGet_foldl_dbDelete_of_notMem rest _ k hrest]
      exact storeGet_dbDelete_self db k

theorem mem_keys_of_storeGet_isSome (db : ParkingStore) (k : String)
    (h : (storeGet db k).isSome) : k ∈ db.map Prod.fst := by
  induction db with
  | nil => simp [storeGet] at h
  | cons kv rest ih =>
    obtain ⟨k1, r⟩ := kv
    by_cases h1 : k1 = k
    · subst h1
      exact List.mem_cons_self _ _
    · rw [storeGet, if_neg h1] at h
      exact List.mem_cons_of_mem _ (ih h)

theorem updatedKeys_cons (lot : FetchedLot) (rest : List FetchedLot) :
    updatedKeys (lot :: rest) =
      (match lot.location_name with
        | none => updatedKeys rest
        | some name =>
          if name = "" then updatedKeys rest
          else match lot_key_from_name name with
            | none => updatedKeys rest
            | some key => key :: updatedKeys rest) := by
  rcases hn : lot.location_name with _ | name
  · simp [updatedKeys, List.filterMap_cons, hn]
  · by_cases he : name = ""
    · simp [updatedKeys, List.filterMap_cons, hn, he]
    · rcases hk : lot_key_from_name name with _ | key <;>
        simp [updatedKeys, List.filterMap_cons, hn, he, hk]

theorem parkingLoop_storeGet_untouched (cur : ParkingStore) (lots : List FetchedLot) :
    ∀ db db', parkingLoop cur db lots = some db' →
      ∀ k, k ∉ updatedKeys lots → storeGet db' k = storeGet db k := by
  induction lots with
  | nil =>
    intro db db' h k _
    simp only [parkingLoop] at h
    cases h
    rfl
  | cons lot rest ih =>
    intro db db' h k hk
    rw [parkingLoop] at h
    rcases hn : lot.location_name with _ | name
    · simp only [parkingStep, hn] at h
      exact ih db db' h k (by rw [updatedKeys_cons, hn] at hk; exact hk)
    · by_cases he : name = ""
      · simp only [parkingStep, hn, he, if_true, ite_true] at h
        exact ih db db' h k (by rw [updatedKeys_cons, hn] at hk; simp [he] at hk; exact hk)
      · rcases hkey : lot_key_from_name name with _ | key
        · simp only [parkingStep, hn, he, hkey, if_false, ite_false] at h
          cases h
        · simp only [parkingStep, hn, he, hkey, if_false, ite_false] at h
          rw [updatedKeys_cons, hn] at hk
          simp only [he, if_false, ite_false] at hk
          rw [hkey] at hk
          have hkk : k ≠ key := fun hh => hk (hh ▸ List.mem_cons_self _ _)
          have hkrest : k ∉ updatedKeys rest := fun hh => hk (List.mem_cons_of_mem _ hh)
          rw [ih _ db' h k hkrest]
          exact storeGet_dbUpdate_ne db key _ k hkk

theorem parkingLoop_some_of_safe (cur : ParkingStore) (lots : List FetchedLot)
    (hsafe : ∀ lot ∈ lots, ∀ name, lot.location_name = some name → name ≠ "" →
      (lot_key_from_name name).isSome) :
    ∀ db, ∃ db', parkingLoop cur db lots = some db' := by
  induction lots with
  | nil => intro db; exact ⟨db, rfl⟩
  | cons lot rest ih =>
    intro db
    have hsafe' : ∀ lot ∈ rest, ∀ name, lot.location_name = some name → name ≠ "" →
        (lot_key_from_name name).isSome :=
      fun l hl => hsafe l (List.mem_cons_of_mem _ hl)
    rcases hn : lot.location_name with _ | name
    · obtain ⟨db', hdb'⟩ := ih hsafe' db
      exact ⟨db', by rw [parkingLoop]; simp only [parkingStep, hn]; exact hdb'⟩
    · by_cases he : name = ""
      · obtain ⟨db', hdb'⟩ := ih hsafe' db
        exact ⟨db', by rw [parkingLoop]; simp only [parkingStep, hn, he, ite_true]; exact hdb'⟩
      · have hks := hsafe lot (List.mem_cons_self _ _) name hn he
        rcases hkey : lot_key_from_name name with _ | key
        · rw [hkey] at hks
          cases hks
        · obtain ⟨db', hdb'⟩ := ih hsafe'
            (dbUpdate db key (build_lot_data lot ((storeGet cur key).getD emptyRecord) key))
          exact ⟨db', by
            rw [parkingLoop]
            simp only [parkingStep, hn, he, hkey, ite_false]
            exact hdb'⟩

theorem mem_updatedKeys (lots : List FetchedLot) (lot : FetchedLot) (hlot : lot ∈ lots)
    (name key : String) (hn : lot.location_name = some name) (he : name ≠ "")
    (hkey : lot_key_from_name name = some key) : key ∈ updatedKeys lots := by
  apply List.mem_filterMap.mpr
  refine ⟨lot, hlot, ?_⟩
  rw [hn]
  simp [he, hkey]

theorem parkingLoop_storeGet_updated (cur : ParkingStore) (lots : List FetchedLot) :
    ∀ db db', parkingLoop cur db lots = some db' → (updatedKeys lots).Nodup →
      ∀ lot ∈ lots, ∀ name key, lot.location_name = some name → name ≠ "" →
        lot_key_from_name name = some key →
        storeGet db' key = some (applyUpdate ((storeGet db key).getD emptyRecord)
          (build_lot_data lot ((storeGet cur key).getD emptyRecord) key)) := by
  induction lots with
  | nil =>
    intro db db' _ _ lot hlot
    cases hlot
  | cons lot0 rest ih =>
    intro db db' h hnodup lot hlot name key hn he hkey
    rw [parkingLoop] at h
    rcases List.mem_cons.mp hlot with hhead | htail
    · subst hhead
      simp only [parkingStep, hn, he, hkey, ite_false] at h
      have hkeys : updatedKeys (lot :: rest) = key :: updatedKeys rest := by
        rw [updatedKeys_cons, hn]
        simp [he, hkey]
      rw [hkeys] at hnodup
      have hknotin : key ∉ updatedKeys rest := (List.nodup_cons.mp hnodup).1
      rw [parkingLoop_storeGet_untouched cur rest _ db' h key hknotin]
      exact storeGet_dbUpdate_self db key _
    · have hkeyrest : key ∈ updatedKeys rest :=
        mem_updatedKeys rest lot htail name key hn he hkey
      rcases hn0 : lot0.location_name with _ | name0
      · simp only [parkingStep, hn0] at h
        have hnodup' : (updatedKeys rest).Nodup := by
          rw [updatedKeys_cons, hn0] at hnodup
          exact hnodup
        exact ih db db' h hnodup' lot htail name key hn he hkey
      · by_cases he0 : name0 = ""
        · simp only [parkingStep, hn0, he0, ite_true] at h
          have hnodup' : (updatedKeys rest).Nodup := by
            rw [updatedKeys_cons, hn0] at hnodup
            simpa [he0] using hnodup
          exact ih db db' h hnodup' lot htail name key hn he hkey
        · rcases hkey0 : lot_key_from_name name0 with _ | key0
          · simp only [parkingStep, hn0, he0, hkey0, ite_false] at h
            cases h
          · simp only [parkingStep, hn0, he0, hkey0, ite_false] at h
            have hkeys : updatedKeys (lot0 :: rest) = key0 :: updatedKeys rest := by
              rw [updatedKeys_cons, hn0]
              simp [he0, hkey0]
            rw [hkeys] at hnodup
            have hki := List.nodup_cons.mp hnodup
            have hne : key ≠ key0 := fun hh => hki.1 (hh ▸ hkeyrest)
            have := ih _ db' h hki.2 lot htail name key hn he hkey
            rw [storeGet_dbUpdate_ne db key0 _ key hne] at this
            exact this

theorem parkingLoop_skip_unnamed (cur : ParkingStore) (lots : List FetchedLot) :
    ∀ db, parkingLoop cur db lots = parkingLoop cur db (lots.filter pyTruthyName) := by
  induction lots with
  | nil => intro db; rfl
  | cons lot rest ih =>
    intro db
    rcases hn : lot.location_name with _ | name
    · rw [List.filter_cons_of_neg (by simp [pyTruthyName, hn])]
      rw [parkingLoop]
      simp only [parkingStep, hn]
      exact ih db
    · by_cases he : name = ""
      · rw [List.filter_cons_of_neg (by simp [pyTruthyName, hn, he])]
        rw [parkingLoop]
        simp only [parkingStep, hn, he, ite_true]
        exact ih db
      · rw [List.filter_cons_of_pos (by simp [pyTruthyName, hn, he])]
        rw [parkingLoop, parkingLoop]
        simp only [parkingStep, hn, he, ite_false]
        rcases lot_key_from_name name with _ | key
        · rfl
        · exact ih _

theorem updatedKeys_filter_unnamed (lots : List FetchedLot) :
    updatedKeys (lots.filter pyTruthyName) = updatedKeys lots := by
  induction lots with
  | nil => rfl
  | cons lot rest ih =>
    rcases hn : lot.location_name with _ | name
    · rw [List.filter_cons_of_neg (by simp [pyTruthyName, hn])]
      rw [updatedKeys_cons]
      simp only [hn]
      exact ih
    · by_cases he : name = ""
      · rw [List.filter_cons_of_neg (by simp [pyTruthyName, hn, he])]
        rw [updatedKeys_cons]
        simp only [hn, he, ite_true]
        exact ih
      · rw [List.filter_cons_of_pos (by simp [pyTruthyName, hn, he])]
        rw [updatedKeys_cons, updatedKeys_cons]
        simp only [hn, he, ite_false]
        rcases lot_key_from_name name with _ | key
        · exact ih
        · rw [ih]

/-- C1: a successful reconciliation cycle writes each fetched lot with a
truthy name under its derived key as its normalized fields merged over
the stored record (the stored isHidden preserved, defaulting to false,
and stored fields outside the updated key set untouched), deletes every
stored key no fetched lot derives, and skips nameless lots without
aborting the cycle. -/
theorem get_live_parking_reconciliation
    (current_lots : ParkingStore) (parking_lots : List FetchedLot)
    (hsafe : ∀ lot ∈ parking_lots, ∀ name, lot.location_name = some name → name ≠ "" →
      (lot_key_from_name name).isSome)
    (hnodup : (updatedKeys parking_lots).Nodup) :
    ∃ result, get_live_parking_run current_lots parking_lots = some result ∧
      (∀ lot ∈ parking_lots, ∀ name key, lot.location_name = some name → name ≠ "" →
        lot_key_from_name name = some key →
        storeGet result key =
          some (applyUpdate ((storeGet current_lots key).getD emptyRecord)
            (build_lot_data lot ((storeGet current_lots key).getD emptyRecord) key)) ∧
        (applyUpdate ((storeGet current_lots key).getD emptyRecord)
            (build_lot_data lot ((storeGet current_lots key).getD emptyRecord) key)).isHidden =
          some (((storeGet current_lots key).getD emptyRecord).isHidden.getD false) ∧
        (applyUpdate ((storeGet current_lots key).getD emptyRecord)
            (build_lot_data lot ((storeGet current_lots key).getD emptyRecord) key)).extra =
          ((storeGet current_lots key).getD emptyRecord).extra) ∧
      (∀ k, (storeGet current_lots k).isSome → k ∉ updatedKeys parking_lots →
        storeGet result k = none) ∧
      get_live_parking_run current_lots parking_lots =
        get_live_parking_run current_lots (parking_lots.filter pyTruthyName) := by
  obtain ⟨db, hdb⟩ := parkingLoop_some_of_safe current_lots parking_lots hsafe current_lots
  refine ⟨(((current_lots.map Prod.fst).filter
      fun k => k ∉ updatedKeys parking_lots).foldl dbDelete db), ?_, ?_, ?_, ?_⟩
  · rw [get_live_parking_run, hdb]
  · intro lot hlot name key hn he hkey
    have hkmem : key ∈ updatedKeys parking_lots :=
      mem_updatedKeys parking_lots lot hlot name key hn he hkey
    have hnotobs : key ∉ (current_lots.map Prod.fst).filter
        fun k => k ∉ updatedKeys parking_lots := by
      intro hmem
      have := (List.mem_filter.mp hmem).2
      simp only [decide_eq_true_eq] at this
      exact this hkmem
    rw [storeGet_foldl_dbDelete_of_notMem _ db key hnotobs]
    exact ⟨parkingLoop_storeGet_updated current_lots parking_lots current_lots db hdb
      hnodup lot hlot name key hn he hkey, rfl, rfl⟩
  · intro k hk hknot
    apply storeGet_foldl_dbDelete_of_mem
    exact List.mem_filter.mpr ⟨mem_keys_of_storeGet_isSome current_lots k hk, by
      simp only [decide_eq_true_eq]
      exact hknot⟩
  · rw [get_live_parking_run, get_live_parking_run,
      ← parkingLoop_skip_unnamed current_lots parking_lots current_lots,
      updatedKeys_filter_unnamed]

/-- Witness for C1: on the concrete stored map and fetch, the stale key
beta is deleted and the lot alpha keeps its stored hidden flag. -/
theorem get_live_parking_reconciliation_cycle :
    ∃ result, get_live_parking_run storedParkingC1 fetchedParkingC1 = some result ∧
      storeGet result "beta" = none ∧
      ∃ r, storeGet result "alpha" = some r ∧ r.isHidden = some true ∧
        r.extra = [("note", PyV.vStr "keep")] := by
  obtain ⟨result, hrun, hupd, hdel, _⟩ :=
    get_live_parking_reconciliation storedParkingC1 fetchedParkingC1
      (by decide) (by decide)
  obtain ⟨hget, hhid, hextra⟩ :=
    hupd lotAlphaFetched (by decide) "Alpha" "alpha" (by decide) (by decide) (by decide)
  refine ⟨result, hrun, hdel "beta" (by decide) (by decide), _, hget, ?_, ?_⟩
  · rw [hhid]
    decide
  · rw [hextra]
    decide

/-! ## Weather cycle abort on missing temperature -/

theorem readingsGet_eq_none (d : List (String × ℚ)) (k : String)
    (h : ∀ r ∈ d, r.1 ≠ k) : readingsGet d k = none := by
  induction d with
  | nil => rfl
  | cons kv rest ih =>
    obtain ⟨k1, v⟩ := kv
    rw [readingsGet, ih fun r hr => h r (List.mem_cons_of_mem _ hr)]
    simp [h (k1, v) (List.mem_cons_self _ _)]

/-- C6: a weather cycle whose station payload has no Thermometer reading
writes nothing: the run returns none before any store write, and the
guarded path returns cleanly, so no exception reaches the top-level
handler. -/
theorem get_weather_missing_temperature (station : Station)
    (sunriseSunset : Option (ℤ × ℤ)) (timestamp_str : String)
    (h : ∀ r ∈ station.readings, r.1 ≠ "Thermometer") :
    get_weather_write station sunriseSunset timestamp_str = none := by
  rw [get_weather_write]
  rw [readingsGet_eq_none station.readings "Thermometer" h]

/-- Witness for C6 on a station with humidity and wind but no
temperature. -/
theorem get_weather_missing_temperature_station :
    get_weather_write stationNoThermometer none "2025-01-01 070000 AM" = none :=
  get_weather_missing_temperature stationNoThermometer none "2025-01-01 070000 AM"
    (by decide)

/-! ## Event normalization lemmas -/

/-- Inversion of the Localist format_event: a produced event determines
the coordinate fields, the id, and the categories field. -/
theorem localist_format_inv (soup : String → String) (conv : String → Option String)
    (item : LocalistItem) (ev : LocalistEvent)
    (h : Localist.format_event soup conv item = some ev) :
    ∃ la ln, localistCoordField item.geo_latitude = some la ∧
      localistCoordField item.geo_longitude = some ln ∧
      ev.coordinate = mkCoordinate la ln ∧
      ev.id = "localist_" ++ item.id.getD "" ∧
      ev.categories =
        (if item.filters_event_types.map (fun nm => nm.getD "") = [] then none
         else some (item.filters_event_types.map fun nm => nm.getD "")) := by
  rcases h1 : localistCoordField item.geo_latitude with _ | la <;>
    rcases h2 : localistCoordField item.geo_longitude with _ | ln <;>
    simp only [Localist.format_event, h1, h2, Option.some.injEq] at h
  · cases h
  · cases h
  · cases h
  · exact ⟨la, ln, rfl, rfl, by rw [← h], by rw [← h], by rw [← h]⟩

/-- C4: in both event normalizers the location coordinate is a full pair
exactly when both upstream coordinate values are truthy (present and
non-zero; for the calendar source, present, non-empty and parsing to a
non-zero float), and in every other case it is absent, never a pair with
one populated component. -/
theorem coordinate_composition :
    (∀ lat lng p, mkCoordinate lat lng = some p →
      ∃ a b, p = (some a, some b) ∧ a ≠ 0 ∧ b ≠ 0) ∧
    (∀ lat lng, (mkCoordinate lat lng).isSome ↔
      (pyTruthyNum lat = true ∧ pyTruthyNum lng = true)) ∧
    (∀ v, pyTruthyNum v = true ↔ ∃ q, v = some q ∧ q ≠ 0) ∧
    (∀ soup conv item ev, Localist.format_event soup conv item = some ev →
      ∃ la ln, localistCoordField item.geo_latitude = some la ∧
        localistCoordField item.geo_longitude = some ln ∧
        ev.coordinate = mkCoordinate la ln) ∧
    (localistCoordField none = some none ∧ localistCoordField (some "") = some none) ∧
    (∀ soup conv item org_map,
      (Engage.format_event soup conv item org_map).coordinate =
        mkCoordinate (engageCoordField item.address_latitude)
          (engageCoordField item.address_longitude)) ∧
    (engageCoordField none = none ∧
      ∀ q, engageCoordField (some q) = if q = 0 then none else some q) := by
  refine ⟨?_, ?_, ?_, ?_, ⟨rfl, rfl⟩, fun soup conv item org_map => rfl, ⟨rfl, fun q => rfl⟩⟩
  · intro lat lng p h
    rw [mkCoordinate] at h
    by_cases hc : (pyTruthyNum lat && pyTruthyNum lng) = true
    · rw [if_pos hc] at h
      obtain ⟨h1, h2⟩ := Bool.and_eq_true_iff.mp hc
      injection h with h'
      rcases lat with _ | a
      · simp [pyTruthyNum] at h1
      · rcases lng with _ | b
        · simp [pyTruthyNum] at h2
        · exact ⟨a, b, h'.symm, by simpa [pyTruthyNum] using h1,
            by simpa [pyTruthyNum] using h2⟩
    · rw [if_neg hc] at h
      cases h
  · intro lat lng
    rw [mkCoordinate]
    by_cases hc : (pyTruthyNum lat && pyTruthyNum lng) = true
    · simp [hc, Bool.and_eq_true_iff.mp hc]
    · rw [if_neg hc]
      simp only [Option.isSome_none, Bool.false_eq_true, false_iff]
      intro hcon
      exact hc (Bool.and_eq_true_iff.mpr hcon)
  · intro v
    rcases v with _ | q <;> simp [pyTruthyNum]
  · intro soup conv item ev h
    obtain ⟨la, ln, h1, h2, h3, _⟩ := localist_format_inv soup conv item ev h
    exact ⟨la, ln, h1, h2, h3⟩

/-- Witness for C4 on a Localist event with no geo fields: the theorem
forces an absent coordinate. -/
theorem coordinate_composition_cases :
    ∃ ev, Localist.format_event (fun s => s) (fun s => some s) localistItemPlain = some ev ∧
      ev.coordinate = none := by
  rcases hev : Localist.format_event (fun s => s) (fun s => some s) localistItemPlain
    with _ | ev
  · exact absurd hev (by decide)
  · obtain ⟨la, ln, hla, hln, hcoord⟩ :=
      coordinate_composition.2.2.2.1 (fun s => s) (fun s => some s) localistItemPlain ev hev
    injection hla with hla'
    refine ⟨ev, rfl, ?_⟩
    rw [hcoord, ← hla']
    rfl

/-- Counterexample to C5: a calendar event whose upstream event types
repeat a name is normalized with a duplicated categories list, so the
calendar normalizer does not deduplicate by name. -/
theorem localist_categories_duplicate :
    (Localist.format_event (fun s => s) (fun s => some s) localistItemDup).map
      (fun ev => ev.categories) = some (some ["Arts", "Arts"]) ∧
    ¬ (["Arts", "Arts"] : List String).Nodup :=
  ⟨rfl, by decide⟩

/-- The Engage merge fold preserves the no-duplicates invariant. -/
theorem engageFold_nodup (cats : List (Option String)) :
    ∀ acc : List String, acc.Nodup →
      (cats.foldl
        (fun acc c =>
          let name := c.getD ""
          if name ≠ "" ∧ name ∉ acc then acc ++ [name] else acc)
        acc).Nodup := by
  induction cats with
  | nil => intro acc h; exact h
  | cons c rest ih =>
    intro acc h
    rw [List.foldl_cons]
    apply ih
    show (if c.getD "" ≠ "" ∧ c.getD "" ∉ acc then acc ++ [c.getD ""] else acc).Nodup
    split_ifs with hc
    · simp [List.nodup_append, h, List.disjoint_singleton, hc.2]
    · exact h

/-- The merged theme-plus-categories list never holds a name twice. -/
theorem engageMergeCategories_nodup (theme : Option String) (cats : List (Option String)) :
    (engageMergeCategories theme cats).Nodup := by
  rw [engageMergeCategories]
  apply engageFold_nodup
  split_ifs <;> simp

/-- C5 amended: the organization normalizer merges the theme and the
category names into one ordered list with no duplicate name, while the
calendar normalizer keeps the upstream event-type names in order without
deduplicating; in both, an empty merged result makes the field absent,
never an empty list. -/
theorem event_categories_spec :
    (∀ theme cats, (engageMergeCategories theme cats).Nodup) ∧
    (∀ soup conv item org_map,
      (Engage.format_event soup conv item org_map).categories ≠ some [] ∧
      ∀ l, (Engage.format_event soup conv item org_map).categories = some l →
        l = engageMergeCategories item.theme item.categories ∧ l.Nodup ∧ l ≠ []) ∧
    (∀ soup conv item ev, Localist.format_event soup conv item = some ev →
      ev.categories ≠ some [] ∧
      ∀ l, ev.categories = some l →
        l = item.filters_event_types.map fun nm => nm.getD "") := by
  refine ⟨engageMergeCategories_nodup, ?_, ?_⟩
  · intro soup conv item org_map
    have hfield : (Engage.format_event soup conv item org_map).categories =
        (if engageMergeCategories item.theme item.categories = [] then none
         else some (engageMergeCategories item.theme item.categories)) := rfl
    constructor
    · intro hcon
      rw [hfield] at hcon
      by_cases hc : engageMergeCategories item.theme item.categories = []
      · rw [if_pos hc] at hcon
        cases hcon
      · rw [if_neg hc] at hcon
        injection hcon with h'
        exact hc h'
    · intro l hl
      rw [hfield] at hl
      by_cases hc : engageMergeCategories item.theme item.categories = []
      · rw [if_pos hc] at hl
        cases hl
      · rw [if_neg hc] at hl
        injection hl with h'
        exact ⟨h'.symm, h' ▸ engageMergeCategories_nodup item.theme item.categories,
          fun h0 => hc (h'.trans h0)⟩
  · intro soup conv item ev h
    obtain ⟨la, ln, _, _, _, _, hcat⟩ := localist_format_inv soup conv item ev h
    constructor
    · intro hcon
      rw [hcat] at hcon
      by_cases hc : item.filters_event_types.map (fun nm => nm.getD "") = []
      · rw [if_pos hc] at hcon
        cases hcon
      · rw [if_neg hc] at hcon
        injection hcon with h'
        exact hc h'
    · intro l hl
      rw [hcat] at hl
      by_cases hc : item.filters_event_types.map (fun nm => nm.getD "") = []
      · rw [if_pos hc] at hl
        cases hl
      · rw [if_neg hc] at hl
        injection hl with h'
        exact h'.symm

/-- Witness for C5, discharging the hypotheses at a concrete event. -/
theorem event_categories_spec_cases :
    (engageMergeCategories (some "Social") [some "Arts", some "Social"]).Nodup ∧
    ∃ ev, Localist.format_event (fun s => s) (fun s => some s) localistItemDup = some ev ∧
      ev.categories ≠ some [] := by
  refine ⟨event_categories_spec.1 (some "Social") [some "Arts", some "Social"], ?_⟩
  rcases hev : Localist.format_event (fun s => s) (fun s => some s) localistItemDup
    with _ | ev
  · exact absurd hev (by decide)
  · exact ⟨ev, rfl,
      (event_categories_spec.2.2 (fun s => s) (fun s => some s) localistItemDup ev hev).1⟩

/-- C7: the event pipelines are idempotent on the stored document, since
a successful cycle replaces the document with data derived from the
fetch alone and an aborted cycle leaves it unchanged; and each
normalized id is the source tag concatenated with the upstream id, so
identical upstream data reproduces identical keys. -/
theorem event_pipelines_idempotent :
    (∀ soup conv today ts doc raw_events,
      get_calendar_events_run soup conv today ts
        (get_calendar_events_run soup conv today ts doc raw_events) raw_events =
        get_calendar_events_run soup conv today ts doc raw_events) ∧
    (∀ soup conv org_map today ts doc raw_events,
      get_organization_events_run soup conv org_map today ts
        (get_organization_events_run soup conv org_map today ts doc raw_events) raw_events =
        get_organization_events_run soup conv org_map today ts doc raw_events) ∧
    (∀ soup conv item ev, Localist.format_event soup conv item = some ev →
      ev.id = "localist_" ++ item.id.getD "") ∧
    (∀ soup conv item org_map,
      (Engage.format_event soup conv item org_map).id = "engage_" ++ item.id.getD "") := by
  refine ⟨?_, ?_, ?_, fun soup conv item org_map => rfl⟩
  · intro soup conv today ts doc raw_events
    rcases hm : mapOption (Localist.format_event soup conv) raw_events with _ | events
    · simp [get_calendar_events_run, hm]
    · by_cases he : events = [] <;> simp [get_calendar_events_run, hm, he]
  · intro soup conv org_map today ts doc raw_events
    by_cases hr : raw_events = [] <;> simp [get_organization_events_run, hr]
  · intro soup conv item ev h
    obtain ⟨la, ln, _, _, _, hid, _⟩ := localist_format_inv soup conv item ev h
    exact hid

/-- Witness for C7 at a concrete calendar event. -/
theorem event_pipelines_idempotent_cases :
    (Localist.format_event (fun s => s) (fun s => some s) localistItemPlain).map
      (fun ev => ev.id) = some "localist_42" := by
  rcases hev : Localist.format_event (fun s => s) (fun s => some s) localistItemPlain
    with _ | ev
  · exact absurd hev (by decide)
  · have hid := event_pipelines_idempotent.2.2.1 (fun s => s) (fun s => some s)
      localistItemPlain ev hev
    rw [show ((some ev).map fun e => e.id) = some ev.id from rfl, hid]
    rfl

end CampusApp
